import Mathlib

/-!
Verification of the siabridge caching bridge (package bridge, siabridge.go
and the cache helper file).

The persistent sqlite tables `buckets(name, created)` and
`objects(bucket, name, size, queued, uploaded, purge_after, cached_fetches,
sia_fetches, last_fetch)` are embedded as association lists of rows; the
on-disk cache directory and the remote Sia side are association lists from
the (bucket, objectName) path to byte content.  Timestamps are unix seconds
as `Int` (Go int64).  Every fallible operation returns the new world state
together with an `Except String` result carrying the exact error strings of
the source; the state is returned even on error because Go side effects are
not rolled back.
-/

deriving instance DecidableEq for Except

namespace Bridge

/-- One row of the objects table, mirroring the columns selected throughout
siabridge.go (size, queued, uploaded, purge_after, cached_fetches,
sia_fetches, last_fetch).  The bucket and object name form the key and are
kept outside the record. -/
structure ObjectRecord where
  size : Int
  queued : Int
  uploaded : Int
  purge_after : Int
  cached_fetches : Int
  sia_fetches : Int
  last_fetch : Int
deriving DecidableEq, Repr

/-- The (bucket, objectName) composite key used by the objects table and by
the cache path bucket/objectName. -/
abbrev ObjKey := String × String

/-- One entry of the RenterFiles list returned by the siad /renter/files
endpoint: its SiaPath and whether the file is Available. -/
structure RenterFile where
  siaPath : String
  available : Bool
deriving DecidableEq, Repr

/-- The whole world the bridge mutates: the two database tables, the local
cache directory, the remote side content, and the requests issued to the
sia daemon (uploads, deletes, downloads), newest first. -/
structure BridgeState where
  buckets : List (String × Int)
  objects : List (ObjKey × ObjectRecord)
  cache : List (ObjKey × List Nat)
  remote : List (ObjKey × List Nat)
  uploadsRequested : List ObjKey
  deletesRequested : List ObjKey
  downloadsRequested : List ObjKey
deriving DecidableEq, Repr

/-- First binding of a key in an association list, as a SELECT of the row
with that key returns it. -/
def lookupA {α β : Type} [DecidableEq α] : List (α × β) → α → Option β
  | [], _ => none
  | e :: rest, k => if e.1 = k then some e.2 else lookupA rest k

/-- Removal of every binding of a key, as DELETE FROM ... WHERE key removes
every matching row. -/
def removeA {α β : Type} [DecidableEq α] (l : List (α × β)) (k : α) : List (α × β) :=
  l.filter (fun e => decide (e.1 ≠ k))

/-- UPDATE ... WHERE bucket=? AND name=?: apply f to the record of every row
whose key matches. -/
def updObj (objs : List (ObjKey × ObjectRecord)) (k : ObjKey)
    (f : ObjectRecord → ObjectRecord) : List (ObjKey × ObjectRecord) :=
  objs.map (fun row => if row.1 = k then (row.1, f row.2) else row)

/-- bucketExists: SELECT name FROM buckets WHERE name=? and report whether a
row came back. -/
def bucketExists (s : BridgeState) (bucket : String) : Bool :=
  (lookupA s.buckets bucket).isSome

/-- objectExists: SELECT bucket,name FROM objects WHERE bucket=? AND name=?
and report whether a row came back. -/
def objectExists (s : BridgeState) (bucket objectName : String) : Bool :=
  (lookupA s.objects (bucket, objectName)).isSome

/-- insertBucket: INSERT INTO buckets(name, created) values(bucket, now). -/
def insertBucket (s : BridgeState) (bucket : String) (now : Int) : BridgeState :=
  { s with buckets := (bucket, now) :: s.buckets }

/-- insertObject: INSERT INTO objects(...) values(bucket, objectName, size,
queued, uploaded, purge_after, 0, 0, -1): fetch counters start at zero and
last_fetch starts at the sentinel -1. -/
def insertObject (s : BridgeState) (bucket objectName : String)
    (size queued uploaded purge_after : Int) : BridgeState :=
  { s with objects :=
      ((bucket, objectName),
        ⟨size, queued, uploaded, purge_after, 0, 0, -1⟩) :: s.objects }

/-- updateCachedFetches: UPDATE objects SET cached_fetches=fetches WHERE
bucket=? AND name=?. -/
def updateCachedFetches (s : BridgeState) (bucket objectName : String)
    (fetches : Int) : BridgeState :=
  { s with objects := updObj s.objects (bucket, objectName) (fun r =>
      { r with cached_fetches := fetches }) }

/-- updateSiaFetches: UPDATE objects SET sia_fetches=fetches WHERE bucket=?
AND name=?.  No function of the bridge ever calls it. -/
def updateSiaFetches (s : BridgeState) (bucket objectName : String)
    (fetches : Int) : BridgeState :=
  { s with objects := updObj s.objects (bucket, objectName) (fun r =>
      { r with sia_fetches := fetches }) }

/-- markObjectUploaded: UPDATE objects SET uploaded=now WHERE bucket=? AND
name=?.  The statement execution can fail in the database layer; the
failure oracle dbFail says for which keys the Exec errors, in which case no
row changes and the error surfaces. -/
def markObjectUploaded (s : BridgeState) (dbFail : String → String → Bool)
    (bucket objectName : String) (now : Int) : BridgeState × Except String Unit :=
  if dbFail bucket objectName then
    (s, Except.error "database update failed")
  else
    ({ s with objects := updObj s.objects (bucket, objectName) (fun r =>
        { r with uploaded := now }) }, Except.ok ())

/-- CreateBucket: return success if the bucket already exists, otherwise
insert it. -/
def CreateBucket (s : BridgeState) (bucket : String) (now : Int) :
    BridgeState × Except String Unit :=
  if bucketExists s bucket then (s, Except.ok ())
  else (insertBucket s bucket now, Except.ok ())

/-- DeleteBucket: DELETE FROM buckets WHERE name=?.  Only the buckets table
is touched. -/
def DeleteBucket (s : BridgeState) (bucket : String) :
    BridgeState × Except String Unit :=
  ({ s with buckets := removeA s.buckets bucket }, Except.ok ())

/-- ListBuckets: SELECT * FROM buckets. -/
def ListBuckets (s : BridgeState) : List (String × Int) :=
  s.buckets

/-- ListObjects: SELECT name,size,queued,uploaded,purge_after,cached_fetches,
sia_fetches,last_fetch FROM objects WHERE bucket=?, one (name, record) per
row. -/
def ListObjects (s : BridgeState) (bucket : String) : List (String × ObjectRecord) :=
  s.objects.filterMap (fun row =>
    if row.1.1 = bucket then some (row.1.2, row.2) else none)

/-- GetObjectInfo: SELECT the row of (bucket, objectName), or the error for
a missing row. -/
def GetObjectInfo (s : BridgeState) (bucket objectName : String) :
    Except String ObjectRecord :=
  match lookupA s.objects (bucket, objectName) with
  | none => Except.error "Object does not exist in bucket"
  | some r => Except.ok r

/-- copyFile (cache helper file): if the destination already exists, return
success at once leaving the content alone; otherwise create the file, copy
the data into it and sync it. -/
def copyFile (cache : List (ObjKey × List Nat)) (dst : ObjKey) (data : List Nat) :
    List (ObjKey × List Nat) × Except String Unit :=
  if (lookupA cache dst).isSome then
    (cache, Except.ok ())
  else
    ((dst, data) :: cache, Except.ok ())

/-- GetObject: look the object up (error if no row); if the cache holds the
path, stream the cached bytes and set cached_fetches to the value read plus
one; otherwise refuse with the incomplete-upload error while uploaded is
still the sentinel 0; otherwise request a download from siad into the cache
path, stream it, and again bump cached_fetches (the source calls
updateCachedFetches on this path as well). -/
def GetObject (s : BridgeState) (bucket objectName : String) :
    BridgeState × Except String (List Nat) :=
  match GetObjectInfo s bucket objectName with
  | Except.error e => (s, Except.error e)
  | Except.ok objInfo =>
    match lookupA s.cache (bucket, objectName) with
    | some data =>
        (updateCachedFetches s bucket objectName (objInfo.cached_fetches + 1),
         Except.ok data)
    | none =>
      if objInfo.uploaded = 0 then
        (s, Except.error "Attempting to download incomplete file from Sia")
      else
        let s1 := { s with downloadsRequested :=
          (bucket, objectName) :: s.downloadsRequested }
        match lookupA s.remote (bucket, objectName) with
        | none => (s1, Except.error "download failed")
        | some data =>
          let s2 := { s1 with cache := ((bucket, objectName), data) :: s1.cache }
          (updateCachedFetches s2 bucket objectName (objInfo.cached_fetches + 1),
           Except.ok data)

/-- PutObjectFromReader: refuse with the conflict error if a row already
exists for the key; otherwise copy the data into the cache path, insert the
metadata row (queued now, uploaded 0), and ask siad to upload from the
cache path. -/
def PutObjectFromReader (s : BridgeState) (data : List Nat)
    (bucket objectName : String) (size purge_after now : Int) :
    BridgeState × Except String Unit :=
  if objectExists s bucket objectName then
    (s, Except.error "Object with same name already exists in bucket")
  else
    let s1 := { s with cache := (copyFile s.cache (bucket, objectName) data).1 }
    let s2 := insertObject s1 bucket objectName size now 0 purge_after
    ({ s2 with uploadsRequested := (bucket, objectName) :: s2.uploadsRequested },
     Except.ok ())

/-- DeleteObject: DELETE the metadata row, then ask siad to delete the
remote object.  The cache file is not removed. -/
def DeleteObject (s : BridgeState) (bucket objectName : String) :
    BridgeState × Except String Unit :=
  let s1 := { s with objects := removeA s.objects (bucket, objectName) }
  ({ s1 with deletesRequested := (bucket, objectName) :: s1.deletesRequested },
   Except.ok ())

/-- listUploadingObjects: SELECT ... FROM objects WHERE uploaded=0. -/
def listUploadingObjects (s : BridgeState) : List (ObjKey × ObjectRecord) :=
  s.objects.filter (fun row => decide (row.2.uploaded = 0))

/-- purgeObjB: the per-object test of purgeCache, line for line: skip while
uploaded equals the sentinel time.Unix(0,0); otherwise remove when both
now - uploaded and now - last_fetch exceed purge_after. -/
def purgeObjB (now : Int) (o : ObjectRecord) : Bool :=
  if o.uploaded ≠ 0 then
    decide (now - o.uploaded > o.purge_after) &&
      decide (now - o.last_fetch > o.purge_after)
  else false

/-- purgeCache: for every bucket of ListBuckets and every object of
ListObjects of that bucket, remove the cache file of the object when
purgeObjB holds.  Only the cache changes. -/
def purgeCache (s : BridgeState) (now : Int) : BridgeState :=
  { s with cache := ((ListBuckets s).foldl (fun c bk =>
      (ListObjects s bk.1).foldl (fun c2 ob =>
        if purgeObjB now ob.2 then removeA c2 (bk.1, ob.1) else c2) c) s.cache) }

/-- Inner loop of checkSiaUploads for one pending object: walk the renter
files; on a file whose SiaPath is bucket/objectName and which is Available,
mark the object uploaded, returning the error at once if marking fails. -/
def markInner (dbFail : String → String → Bool) (now : Int)
    (bucket objectName : String) :
    List RenterFile → BridgeState → BridgeState × Except String Unit
  | [], s => (s, Except.ok ())
  | f :: rest, s =>
    if f.siaPath = bucket ++ "/" ++ objectName ∧ f.available then
      match markObjectUploaded s dbFail bucket objectName now with
      | (s1, Except.ok _) => markInner dbFail now bucket objectName rest s1
      | (s1, Except.error e) => (s1, Except.error e)
    else markInner dbFail now bucket objectName rest s

/-- Outer loop of checkSiaUploads: walk the pending objects, running
markInner for each; an error from any object is returned at once. -/
def markOuter (dbFail : String → String → Bool) (now : Int)
    (files : List RenterFile) :
    List (ObjKey × ObjectRecord) → BridgeState → BridgeState × Except String Unit
  | [], s => (s, Except.ok ())
  | (k, _) :: rest, s =>
    match markInner dbFail now k.1 k.2 files s with
    | (s1, Except.ok _) => markOuter dbFail now files rest s1
    | (s1, Except.error e) => (s1, Except.error e)

/-- checkSiaUploads: list the pending (uploaded=0) objects, fetch the renter
file list, and mark every pending object that is available on Sia. -/
def checkSiaUploads (s : BridgeState) (files : List RenterFile)
    (dbFail : String → String → Bool) (now : Int) :
    BridgeState × Except String Unit :=
  markOuter dbFail now files (listUploadingObjects s) s

/-- One step of the bridge: any public operation or background pass applied
to the state. -/
inductive Step : BridgeState → BridgeState → Prop where
  | createBucket (s : BridgeState) (bucket : String) (now : Int) :
      Step s (CreateBucket s bucket now).1
  | deleteBucket (s : BridgeState) (bucket : String) :
      Step s (DeleteBucket s bucket).1
  | putObject (s : BridgeState) (data : List Nat) (bucket objectName : String)
      (size purge_after now : Int) :
      Step s (PutObjectFromReader s data bucket objectName size purge_after now).1
  | getObject (s : BridgeState) (bucket objectName : String) :
      Step s (GetObject s bucket objectName).1
  | deleteObject (s : BridgeState) (bucket objectName : String) :
      Step s (DeleteObject s bucket objectName).1
  | reconcile (s : BridgeState) (files : List RenterFile)
      (dbFail : String → String → Bool) (now : Int) :
      Step s (checkSiaUploads s files dbFail now).1
  | purge (s : BridgeState) (now : Int) :
      Step s (purgeCache s now)

/-- Every object row has sia_fetches 0 and last_fetch -1, the values that
insertObject writes. -/
def fetchInv (s : BridgeState) : Prop :=
  ∀ row ∈ s.objects, row.2.sia_fetches = 0 ∧ row.2.last_fetch = -1

/-- Two object rows with the same key whose records can differ only in the
cached_fetches field. -/
def rowSameExceptCached (a b : ObjKey × ObjectRecord) : Prop :=
  a.1 = b.1 ∧ b.2 = { a.2 with cached_fetches := b.2.cached_fetches }

/-- A queued object row: size 3, queued at 10, uploaded sentinel 0,
purge_after 3600, fresh counters. -/
def rQueued : ObjectRecord := ⟨3, 10, 0, 3600, 0, 0, -1⟩

/-- A state with one bucket B holding one object x. -/
def sBucketWithObject : BridgeState :=
  ⟨[("B", 5)], [(("B", "x"), rQueued)], [], [], [], [], []⟩

/-- A durable object row with purge_after 0: uploaded at 5, never fetched. -/
def rPurgeZero : ObjectRecord := ⟨1, 2, 5, 0, 0, 0, -1⟩

/-- A state with bucket B holding the purge_after-0 object f, whose bytes
are in the cache. -/
def sPurgeZero : BridgeState :=
  ⟨[("B", 0)], [(("B", "f"), rPurgeZero)], [(("B", "f"), [7])], [], [], [], []⟩

/-- Claim C1: DeleteBucket is supposed to remove the bucket record and all
object metadata of the bucket so that ListObjects then returns the empty
sequence.  The code only deletes the buckets row: on a bucket B holding
object x, DeleteBucket succeeds, the buckets table empties, yet ListObjects
B still returns the row of x. -/
theorem deleteBucket_keeps_object_rows :
    (DeleteBucket sBucketWithObject "B").2 = Except.ok () ∧
    (DeleteBucket sBucketWithObject "B").1.buckets = [] ∧
    ListObjects (DeleteBucket sBucketWithObject "B").1 "B" = [("x", rQueued)] := by
  decide

/-- Claim C2: an object with purge_after 0 is supposed never to be evicted.
The eviction test compares both elapsed times strictly against purge_after,
so with purge_after 0 an uploaded object whose bytes are cached is removed
from the cache on the very next purgeCache pass. -/
theorem purgeCache_evicts_purge_after_zero :
    lookupA sPurgeZero.cache ("B", "f") = some [7] ∧
    lookupA (purgeCache sPurgeZero 10).cache ("B", "f") = none := by
  decide

/-- Claim C4 counterexample: copyFile on an already cached destination does
not fail with an error at all; it returns success and leaves the old
content in place. -/
theorem copyFile_existing_returns_ok :
    copyFile [(("b", "x"), [1])] ("b", "x") [2] =
      ([(("b", "x"), [1])], Except.ok ()) := by
  decide

/-- Claim C4 amended: when content already exists at the destination path,
copyFile returns success without touching the existing content (it skips,
it does not overwrite and does not error). -/
theorem copyFile_skips_existing (cache : List (ObjKey × List Nat)) (dst : ObjKey)
    (data : List Nat) (h : (lookupA cache dst).isSome) :
    copyFile cache dst data = (cache, Except.ok ()) := by
  simp [copyFile, h]

/-- Witness for copyFile_skips_existing at a concrete cache. -/
theorem copyFile_skips_existing_witness :
    copyFile [(("c", "y"), [4, 5])] ("c", "y") [6] =
      ([(("c", "y"), [4, 5])], Except.ok ()) :=
  copyFile_skips_existing _ _ _ (by decide)

/-- Claim C7: PutObjectFromReader on a key whose object record already
exists fails with the conflict error and returns the state unchanged, so
neither the cache nor the catalog nor any daemon request changes. -/
theorem putObject_conflict_unchanged (s : BridgeState) (data : List Nat)
    (bucket objectName : String) (size purge_after now : Int) (r : ObjectRecord)
    (h : lookupA s.objects (bucket, objectName) = some r) :
    PutObjectFromReader s data bucket objectName size purge_after now =
      (s, Except.error "Object with same name already exists in bucket") := by
  simp [PutObjectFromReader, objectExists, h]

/-- Witness for putObject_conflict_unchanged on the bucket-with-object
state. -/
theorem putObject_conflict_unchanged_witness :
    PutObjectFromReader sBucketWithObject [1] "B" "x" 1 3600 50 =
      (sBucketWithObject, Except.error "Object with same name already exists in bucket") :=
  putObject_conflict_unchanged _ _ _ _ _ _ _ rQueued (by decide)

/-- Claim C9: GetObject on an object whose record exists, whose cache file
is absent and whose uploaded field is still the sentinel 0 fails with the
incomplete-upload error and returns the state unchanged; in particular
downloadsRequested is unchanged, so no remote download is attempted. -/
theorem getObject_incomplete_no_download (s : BridgeState)
    (bucket objectName : String) (r : ObjectRecord)
    (hrow : lookupA s.objects (bucket, objectName) = some r)
    (hcache : lookupA s.cache (bucket, objectName) = none)
    (hup : r.uploaded = 0) :
    GetObject s bucket objectName =
      (s, Except.error "Attempting to download incomplete file from Sia") := by
  simp [GetObject, GetObjectInfo, hrow, hcache, hup]

/-- Witness for getObject_incomplete_no_download on the bucket-with-object
state. -/
theorem getObject_incomplete_no_download_witness :
    GetObject sBucketWithObject "B" "x" =
      (sBucketWithObject, Except.error "Attempting to download incomplete file from Sia") :=
  getObject_incomplete_no_download _ _ _ rQueued (by decide) (by decide) (by decide)

/-- The eviction test written the way the spec words the never-fetched case:
the upload time stands in for the last-fetch time, so both elapsed-time
comparisons of the Evictor use now - uploaded. -/
def purgeObjStandIn (now : Int) (o : ObjectRecord) : Bool :=
  if o.uploaded ≠ 0 then
    decide (now - o.uploaded > o.purge_after) &&
      decide (now - o.uploaded > o.purge_after)
  else false

/-- Claim C5: for a durable object that has never been fetched (last_fetch
holds the sentinel -1 that insertObject wrote) the eviction decision is the
one obtained by letting the upload time stand in for the last-fetch time;
in particular such an object is evicted only when more than purge_after
seconds have passed since its upload. -/
theorem purge_never_fetched_uses_upload_time (now : Int) (o : ObjectRecord)
    (hlf : o.last_fetch = -1) (hup : 0 ≤ o.uploaded) :
    purgeObjB now o = purgeObjStandIn now o ∧
    (purgeObjB now o = true → now - o.uploaded > o.purge_after) := by
  by_cases h : o.uploaded = 0
  · simp [purgeObjB, purgeObjStandIn, h]
  · have hB : now - o.uploaded > o.purge_after → now - o.last_fetch > o.purge_after := by
      rw [hlf]; omega
    constructor
    · simp only [purgeObjB, purgeObjStandIn, if_pos (show o.uploaded ≠ 0 from h)]
      by_cases hA : now - o.uploaded > o.purge_after
      · simp [hA, hB hA]
      · simp [hA]
    · intro hp
      simp only [purgeObjB, if_pos (show o.uploaded ≠ 0 from h),
        Bool.and_eq_true, decide_eq_true_eq] at hp
      exact hp.1

/-- Witness for purge_never_fetched_uses_upload_time on the durable
never-fetched record. -/
theorem purge_never_fetched_witness :
    purgeObjB 100 rPurgeZero = purgeObjStandIn 100 rPurgeZero :=
  (purge_never_fetched_uses_upload_time 100 rPurgeZero (by decide) (by decide)).1

/-- A pending (uploaded sentinel) object x of bucket b. -/
def rPendX : ObjectRecord := ⟨1, 1, 0, 60, 0, 0, -1⟩

/-- A second pending object y of bucket b. -/
def rPendY : ObjectRecord := ⟨2, 2, 0, 60, 0, 0, -1⟩

/-- A state with two pending objects b/x and b/y. -/
def sTwoPending : BridgeState :=
  ⟨[("b", 0)], [(("b", "x"), rPendX), (("b", "y"), rPendY)], [], [], [], [], []⟩

/-- A renter file list on which both b/x and b/y are available. -/
def filesBothAvailable : List RenterFile :=
  [⟨"b/x", true⟩, ⟨"b/y", true⟩]

/-- A database failure oracle under which only the update for b/x errors. -/
def dbFailOnX : String → String → Bool :=
  fun bucket objectName => bucket == "b" && objectName == "x"

/-- Claim C3 counterexample: with pending objects b/x and b/y both available
remotely, a database error while marking b/x makes checkSiaUploads return
that error at once, and b/y is left with the sentinel uploaded value even
though it was available, so not every pending object is examined. -/
theorem checkSiaUploads_aborts_on_error :
    (checkSiaUploads sTwoPending filesBothAvailable dbFailOnX 100).2 =
      Except.error "database update failed" ∧
    lookupA (checkSiaUploads sTwoPending filesBothAvailable dbFailOnX 100).1.objects
      ("b", "y") = some rPendY := by
  decide

/-- Claim C3 amended: an error arising while processing one pending object
aborts the Reconciler pass: checkSiaUploads returns that error with the
state as of the failure, and the pending objects after the failing one are
never examined (the conclusion does not depend on them). -/
theorem reconcile_error_aborts_rest (s : BridgeState) (files : List RenterFile)
    (dbFail : String → String → Bool) (now : Int) (k : ObjKey) (r : ObjectRecord)
    (rest : List (ObjKey × ObjectRecord)) (s1 : BridgeState) (e : String)
    (hpend : listUploadingObjects s = (k, r) :: rest)
    (herr : markInner dbFail now k.1 k.2 files s = (s1, Except.error e)) :
    checkSiaUploads s files dbFail now = (s1, Except.error e) := by
  unfold checkSiaUploads
  rw [hpend]
  simp only [markOuter]
  rw [herr]

/-- Witness for reconcile_error_aborts_rest on the two-pending state. -/
theorem reconcile_error_aborts_rest_witness :
    checkSiaUploads sTwoPending filesBothAvailable dbFailOnX 100 =
      (sTwoPending, Except.error "database update failed") :=
  reconcile_error_aborts_rest sTwoPending filesBothAvailable dbFailOnX 100
    ("b", "x") rPendX [(("b", "y"), rPendY)] sTwoPending "database update failed"
    (by decide) (by decide)

/-- The empty world. -/
def sEmpty : BridgeState := ⟨[], [], [], [], [], [], []⟩

/-- Bucket B created in the empty world. -/
def sStale0 : BridgeState := (CreateBucket sEmpty "B" 0).1

/-- Object B/x put with bytes [9]. -/
def sStale1 : BridgeState := (PutObjectFromReader sStale0 [9] "B" "x" 1 3600 10).1

/-- Object B/x deleted: the metadata row goes, the cache file stays. -/
def sStale2 : BridgeState := (DeleteObject sStale1 "B" "x").1

/-- A second Put of B/x with fresh bytes [1, 2, 3] over the orphaned cache
file. -/
def putStale : BridgeState × Except String Unit :=
  PutObjectFromReader sStale2 [1, 2, 3] "B" "x" 3 3600 20

/-- Claim C8 counterexample: starting from the empty world, Put B/x [9],
DeleteObject B/x (which leaves the cache file), then Put B/x [1, 2, 3]
succeeds — but copyFile skips the existing cache file, so the immediate Get
serves the stale bytes [9], not the data of the successful Put. -/
theorem put_get_serves_stale_bytes :
    putStale.2 = Except.ok () ∧
    (GetObject putStale.1 "B" "x").2 = Except.ok [9] ∧
    (Except.ok [9] : Except String (List Nat)) ≠ Except.ok [1, 2, 3] := by
  decide

/-- Claim C8 amended: when no object record and no cache file exist yet for
the key, a successful Put followed immediately by Get returns exactly the
put data and sets cached_fetches from 0 to 1, the read being served from
the local cache written before the upload request. -/
theorem put_then_get_fresh (s : BridgeState) (data : List Nat)
    (bucket objectName : String) (size purge_after now : Int)
    (hobj : lookupA s.objects (bucket, objectName) = none)
    (hcache : lookupA s.cache (bucket, objectName) = none) :
    (PutObjectFromReader s data bucket objectName size purge_after now).2 =
      Except.ok () ∧
    (GetObject (PutObjectFromReader s data bucket objectName size purge_after now).1
        bucket objectName).2 = Except.ok data ∧
    lookupA (GetObject (PutObjectFromReader s data bucket objectName size purge_after now).1
        bucket objectName).1.objects (bucket, objectName) =
      some ⟨size, now, 0, purge_after, 1, 0, -1⟩ := by
  simp [PutObjectFromReader, objectExists, hobj, copyFile, hcache, insertObject,
    GetObject, GetObjectInfo, lookupA, updateCachedFetches, updObj]

/-- Witness for put_then_get_fresh from the empty world. -/
theorem put_then_get_fresh_witness :
    (PutObjectFromReader sEmpty [4, 2] "B" "x" 2 3600 30).2 = Except.ok () ∧
    (GetObject (PutObjectFromReader sEmpty [4, 2] "B" "x" 2 3600 30).1 "B" "x").2 =
      Except.ok [4, 2] ∧
    lookupA (GetObject (PutObjectFromReader sEmpty [4, 2] "B" "x" 2 3600 30).1
        "B" "x").1.objects ("B", "x") = some ⟨2, 30, 0, 3600, 1, 0, -1⟩ :=
  put_then_get_fresh sEmpty [4, 2] "B" "x" 2 3600 30 (by decide) (by decide)

/-- Looking a key up after an UPDATE targeting a different key is
unchanged. -/
theorem lookupA_updObj_ne (objs : List (ObjKey × ObjectRecord)) (k k2 : ObjKey)
    (f : ObjectRecord → ObjectRecord) (hne : k ≠ k2) :
    lookupA (updObj objs k2 f) k = lookupA objs k := by
  induction objs with
  | nil => rfl
  | cons e rest ih =>
    simp only [updObj, List.map_cons]
    by_cases h : e.1 = k2
    · have hek : e.1 ≠ k := by
        rw [h]; exact fun hh => hne hh.symm
      rw [if_pos h]
      simp only [lookupA, if_neg hek]
      exact ih
    · rw [if_neg h]
      simp only [lookupA]
      by_cases h2 : e.1 = k
      · rw [if_pos h2, if_pos h2]
      · rw [if_neg h2, if_neg h2]
        exact ih

/-- markObjectUploaded leaves the row of any other key unchanged, whether
or not the database update fails. -/
theorem markObjectUploaded_lookup_ne (s : BridgeState)
    (dbFail : String → String → Bool) (bucket objectName : String) (now : Int)
    (k : ObjKey) (hne : k ≠ (bucket, objectName)) :
    lookupA (markObjectUploaded s dbFail bucket objectName now).1.objects k =
      lookupA s.objects k := by
  unfold markObjectUploaded
  by_cases h : dbFail bucket objectName = true
  · simp [h]
  · simp [h, lookupA_updObj_ne _ _ _ _ hne]

/-- The inner reconciliation loop for one pending object leaves the row of
any other key unchanged. -/
theorem markInner_lookup_ne (dbFail : String → String → Bool) (now : Int)
    (bucket objectName : String) (k : ObjKey) (hne : k ≠ (bucket, objectName)) :
    ∀ (files : List RenterFile) (s : BridgeState),
      lookupA (markInner dbFail now bucket objectName files s).1.objects k =
        lookupA s.objects k := by
  intro files
  induction files with
  | nil => intro s; rfl
  | cons f rest ih =>
    intro s
    simp only [markInner]
    by_cases hc : f.siaPath = bucket ++ "/" ++ objectName ∧ f.available
    · rw [if_pos hc]
      split
      · rename_i s1 x heq
        have hs1 := markObjectUploaded_lookup_ne s dbFail bucket objectName now k hne
        rw [heq] at hs1
        exact (ih s1).trans hs1
      · rename_i s1 e heq
        have hs1 := markObjectUploaded_lookup_ne s dbFail bucket objectName now k hne
        rw [heq] at hs1
        exact hs1
    · rw [if_neg hc]
      exact ih s

/-- The outer reconciliation loop leaves the row of a key that is not a key
of any processed pending object unchanged. -/
theorem markOuter_lookup_ne (dbFail : String → String → Bool) (now : Int)
    (files : List RenterFile) (k : ObjKey) :
    ∀ (objs : List (ObjKey × ObjectRecord)) (s : BridgeState),
      (∀ row ∈ objs, row.1 ≠ k) →
      lookupA (markOuter dbFail now files objs s).1.objects k =
        lookupA s.objects k := by
  intro objs
  induction objs with
  | nil => intro s _; rfl
  | cons kr rest ih =>
    intro s hk
    obtain ⟨k2, r⟩ := kr
    have hk2 : k2 ≠ k := hk (k2, r) (List.mem_cons_self _ _)
    have hne : k ≠ (k2.1, k2.2) := fun hh => hk2 hh.symm
    simp only [markOuter]
    split
    · rename_i s1 x heq
      have h1 := markInner_lookup_ne dbFail now k2.1 k2.2 k hne files s
      rw [heq] at h1
      exact (ih s1 (fun row hr => hk row (List.mem_cons_of_mem _ hr))).trans h1
    · rename_i s1 e heq
      have h1 := markInner_lookup_ne dbFail now k2.1 k2.2 k hne files s
      rw [heq] at h1
      exact h1

/-- In a table whose keys are duplicate free, every row carrying the looked
up key holds the looked up record. -/
theorem lookupA_nodup_unique (k : ObjKey) (r : ObjectRecord) :
    ∀ (objs : List (ObjKey × ObjectRecord)),
      (objs.map Prod.fst).Nodup → lookupA objs k = some r →
      ∀ row ∈ objs, row.1 = k → row.2 = r := by
  intro objs
  induction objs with
  | nil => intro _ _ row hr; cases hr
  | cons e rest ih =>
    intro hnd hl row hr hkey
    simp only [List.map_cons, List.nodup_cons] at hnd
    rcases List.mem_cons.mp hr with h | h
    · subst h
      simp only [lookupA, if_pos hkey] at hl
      exact Option.some.inj hl
    · by_cases he : e.1 = k
      · exfalso
        have hmem : row.1 ∈ rest.map Prod.fst := List.mem_map_of_mem Prod.fst h
        rw [hkey, ← he] at hmem
        exact hnd.1 hmem
      · simp only [lookupA, if_neg he] at hl
        exact ih hnd.2 hl row h hkey

/-- Claim C6: for an object already marked uploaded (uploaded not the
sentinel) in a catalog with duplicate-free keys, the pending-uploads query
excludes the object, and a Reconciler pass leaves its row entirely
unchanged: the uploaded field never reverts and is never set a second
time. -/
theorem uploaded_monotonic (s : BridgeState) (files : List RenterFile)
    (dbFail : String → String → Bool) (now : Int) (k : ObjKey) (r : ObjectRecord)
    (hnd : (s.objects.map Prod.fst).Nodup)
    (hl : lookupA s.objects k = some r) (hup : r.uploaded ≠ 0) :
    (∀ row ∈ listUploadingObjects s, row.1 ≠ k) ∧
    lookupA (checkSiaUploads s files dbFail now).1.objects k = some r := by
  have hpend : ∀ row ∈ listUploadingObjects s, row.1 ≠ k := by
    intro row hrow hkey
    simp only [listUploadingObjects] at hrow
    have hmem : row ∈ s.objects := (List.mem_filter.mp hrow).1
    have h0 : row.2.uploaded = 0 := by
      have := (List.mem_filter.mp hrow).2
      simpa using this
    have hr2 := lookupA_nodup_unique k r s.objects hnd hl row hmem hkey
    rw [hr2] at h0
    exact hup h0
  refine ⟨hpend, ?_⟩
  unfold checkSiaUploads
  rw [markOuter_lookup_ne dbFail now files k (listUploadingObjects s) s hpend, hl]

/-- Witness for uploaded_monotonic on the durable purge-zero object. -/
theorem uploaded_monotonic_witness :
    (∀ row ∈ listUploadingObjects sPurgeZero, row.1 ≠ ("B", "f")) ∧
    lookupA (checkSiaUploads sPurgeZero [⟨"B/f", true⟩] (fun _ _ => false) 100).1.objects
      ("B", "f") = some rPurgeZero :=
  uploaded_monotonic sPurgeZero [⟨"B/f", true⟩] (fun _ _ => false) 100 ("B", "f")
    rPurgeZero (by decide) (by decide) (by decide)

/-- Every row of an UPDATE result comes from a row of the table, either
untouched or with the update function applied to its record. -/
theorem mem_updObj (objs : List (ObjKey × ObjectRecord)) (k : ObjKey)
    (f : ObjectRecord → ObjectRecord) (row : ObjKey × ObjectRecord)
    (h : row ∈ updObj objs k f) :
    ∃ row0 ∈ objs, row = row0 ∨ row = (row0.1, f row0.2) := by
  simp only [updObj, List.mem_map] at h
  obtain ⟨row0, hr0, hmap⟩ := h
  refine ⟨row0, hr0, ?_⟩
  by_cases hk : row0.1 = k
  · right; rw [← hmap, if_pos hk]
  · left; rw [← hmap, if_neg hk]

/-- An UPDATE whose function keeps sia_fetches and last_fetch keeps the
all-rows property that sia_fetches is 0 and last_fetch is -1. -/
theorem rows_fetchInv_updObj (objs : List (ObjKey × ObjectRecord)) (k : ObjKey)
    (f : ObjectRecord → ObjectRecord)
    (hf : ∀ r, (f r).sia_fetches = r.sia_fetches ∧ (f r).last_fetch = r.last_fetch)
    (h : ∀ row ∈ objs, row.2.sia_fetches = 0 ∧ row.2.last_fetch = -1) :
    ∀ row ∈ updObj objs k f, row.2.sia_fetches = 0 ∧ row.2.last_fetch = -1 := by
  intro row hrow
  obtain ⟨row0, hr0, hcase⟩ := mem_updObj objs k f row hrow
  rcases hcase with hEq | hEq
  · rw [hEq]; exact h row0 hr0
  · rw [hEq]
    have h0 := h row0 hr0
    exact ⟨(hf row0.2).1.trans h0.1, (hf row0.2).2.trans h0.2⟩

/-- updateCachedFetches preserves the fetch-field invariant. -/
theorem fetchInv_updateCachedFetches (s : BridgeState) (bucket objectName : String)
    (fetches : Int) (h : fetchInv s) :
    fetchInv (updateCachedFetches s bucket objectName fetches) := by
  simp only [fetchInv, updateCachedFetches]
  exact rows_fetchInv_updObj s.objects _ _ (fun r => ⟨rfl, rfl⟩) h

/-- markObjectUploaded preserves the fetch-field invariant. -/
theorem fetchInv_markObjectUploaded (s : BridgeState)
    (dbFail : String → String → Bool) (bucket objectName : String) (now : Int)
    (h : fetchInv s) :
    fetchInv (markObjectUploaded s dbFail bucket objectName now).1 := by
  unfold markObjectUploaded
  split
  · exact h
  · simp only [fetchInv]
    exact rows_fetchInv_updObj s.objects _ _ (fun r => ⟨rfl, rfl⟩) h

/-- The inner reconciliation loop preserves the fetch-field invariant. -/
theorem fetchInv_markInner (dbFail : String → String → Bool) (now : Int)
    (bucket objectName : String) :
    ∀ (files : List RenterFile) (s : BridgeState), fetchInv s →
      fetchInv (markInner dbFail now bucket objectName files s).1 := by
  intro files
  induction files with
  | nil => intro s h; exact h
  | cons f rest ih =>
    intro s h
    simp only [markInner]
    by_cases hc : f.siaPath = bucket ++ "/" ++ objectName ∧ f.available
    · rw [if_pos hc]
      split
      · rename_i s1 x heq
        apply ih
        have hm := fetchInv_markObjectUploaded s dbFail bucket objectName now h
        rw [heq] at hm
        exact hm
      · rename_i s1 e heq
        have hm := fetchInv_markObjectUploaded s dbFail bucket objectName now h
        rw [heq] at hm
        exact hm
    · rw [if_neg hc]
      exact ih s h

/-- The outer reconciliation loop preserves the fetch-field invariant. -/
theorem fetchInv_markOuter (dbFail : String → String → Bool) (now : Int)
    (files : List RenterFile) :
    ∀ (objs : List (ObjKey × ObjectRecord)) (s : BridgeState), fetchInv s →
      fetchInv (markOuter dbFail now files objs s).1 := by
  intro objs
  induction objs with
  | nil => intro s h; exact h
  | cons kr rest ih =>
    intro s h
    obtain ⟨k2, r⟩ := kr
    simp only [markOuter]
    split
    · rename_i s1 x heq
      apply ih
      have hm := fetchInv_markInner dbFail now k2.1 k2.2 files s h
      rw [heq] at hm
      exact hm
    · rename_i s1 e heq
      have hm := fetchInv_markInner dbFail now k2.1 k2.2 files s h
      rw [heq] at hm
      exact hm

/-- For a cached_fetches-only update, the table before and the table after
are pointwise equal rows up to the cached_fetches field. -/
theorem forall₂_updObj_cached (objs : List (ObjKey × ObjectRecord)) (k : ObjKey)
    (c : Int) :
    List.Forall₂ rowSameExceptCached objs
      (updObj objs k (fun r => { r with cached_fetches := c })) := by
  induction objs with
  | nil => exact List.Forall₂.nil
  | cons e rest ih =>
    simp only [updObj, List.map_cons]
    refine List.Forall₂.cons ?_ ih
    by_cases hk : e.1 = k
    · rw [if_pos hk]
      exact ⟨rfl, rfl⟩
    · rw [if_neg hk]
      exact ⟨rfl, rfl⟩

/-- A successful GetObject changes object rows at most in the
cached_fetches field. -/
theorem getObject_frame (s : BridgeState) (bucket objectName : String)
    (s2 : BridgeState) (out : List Nat)
    (h : GetObject s bucket objectName = (s2, Except.ok out)) :
    List.Forall₂ rowSameExceptCached s.objects s2.objects := by
  unfold GetObject GetObjectInfo at h
  cases hrow : lookupA s.objects (bucket, objectName) with
  | none => simp [hrow, Prod.mk.injEq] at h
  | some objInfo =>
    simp only [hrow] at h
    cases hcache : lookupA s.cache (bucket, objectName) with
    | some data =>
      simp only [hcache, Prod.mk.injEq] at h
      rw [← h.1]
      exact forall₂_updObj_cached s.objects (bucket, objectName)
        (objInfo.cached_fetches + 1)
    | none =>
      simp only [hcache] at h
      by_cases hup : objInfo.uploaded = 0
      · simp [hup, Prod.mk.injEq] at h
      · simp only [if_neg hup] at h
        cases hrem : lookupA s.remote (bucket, objectName) with
        | none => simp [hrem, Prod.mk.injEq] at h
        | some data =>
          simp only [hrem, Prod.mk.injEq] at h
          rw [← h.1]
          exact forall₂_updObj_cached s.objects (bucket, objectName)
            (objInfo.cached_fetches + 1)

/-- Every bridge step preserves the fetch-field invariant. -/
theorem step_fetchInv (s s2 : BridgeState) (hstep : Step s s2)
    (hinv : fetchInv s) : fetchInv s2 := by
  cases hstep with
  | createBucket bucket now =>
    unfold CreateBucket
    split
    · exact hinv
    · exact hinv
  | deleteBucket bucket =>
    exact hinv
  | putObject data bucket objectName size purge_after now =>
    unfold PutObjectFromReader
    split
    · exact hinv
    · simp only [fetchInv, insertObject, List.mem_cons]
      intro row hrow
      rcases hrow with h | h
      · rw [h]; exact ⟨rfl, rfl⟩
      · exact hinv row h
  | getObject bucket objectName =>
    unfold GetObject GetObjectInfo
    cases hrow : lookupA s.objects (bucket, objectName) with
    | none => simp only [hrow]; exact hinv
    | some objInfo =>
      simp only [hrow]
      cases hcache : lookupA s.cache (bucket, objectName) with
      | some data =>
        simp only [hcache]
        exact fetchInv_updateCachedFetches s bucket objectName _ hinv
      | none =>
        simp only [hcache]
        by_cases hup : objInfo.uploaded = 0
        · simp only [if_pos hup]; exact hinv
        · simp only [if_neg hup]
          cases hrem : lookupA s.remote (bucket, objectName) with
          | none => simp only [hrem]; exact hinv
          | some data =>
            simp only [hrem]
            exact fetchInv_updateCachedFetches _ bucket objectName _ hinv
  | deleteObject bucket objectName =>
    simp only [fetchInv, DeleteObject, removeA]
    intro row hrow
    exact hinv row (List.mem_of_mem_filter hrow)
  | reconcile files dbFail now =>
    exact fetchInv_markOuter dbFail now files (listUploadingObjects s) s hinv
  | purge now =>
    exact hinv

/-- Claim C10: the fetch-field invariant written by insertObject (every row
has sia_fetches 0 and last_fetch -1) is preserved by every bridge
operation, so sia_fetches stays 0 and last_fetch stays -1 over an object
lifetime; and a successful GetObject, cache-served or remote-served,
changes object rows in the cached_fetches field only. -/
theorem fetch_fields_frozen :
    (∀ s s2, Step s s2 → fetchInv s → fetchInv s2) ∧
    (∀ s bucket objectName s2 out,
      GetObject s bucket objectName = (s2, Except.ok out) →
      List.Forall₂ rowSameExceptCached s.objects s2.objects) :=
  ⟨step_fetchInv, getObject_frame⟩

/-- Witness for fetch_fields_frozen: the purge step out of the purge-zero
state keeps the invariant. -/
theorem fetch_fields_frozen_witness :
    fetchInv (purgeCache sPurgeZero 10) :=
  fetch_fields_frozen.1 sPurgeZero (purgeCache sPurgeZero 10)
    (Step.purge sPurgeZero 10) (by unfold fetchInv; decide)

end Bridge
